import Mathlib

/-!
Verification development for the finsor-data orchestration core.

The definitions below are shallow embeddings of the TypeScript source:

* `src/middleware/rateLimiter.ts` — the sliding-window rate limiter
  (`RateLimiter.middleware`, `RateLimiter.cleanup`);
* `src/services/cacheService.ts` — the Redis-backed cache abstraction
  (`CacheService.get/set/del/exists/keys/flushPattern/getOrSet`);
* `src/services/schedulerService.ts` — the ingestion scheduler
  (`SchedulerService.runOnce`, the six `ingest*` pipelines, `ingestAll`,
  `isMarketHours`);
* `src/services/vectorService.ts` — the query-filter-to-predicate compiler
  inside `VectorService.query`.

Machine integers are modelled as `Nat` (JavaScript `Date.now()` values are
non-negative and far below any overflow concern here); fallible external
calls are modelled by explicit result oracles, and `try`/`catch` blocks by
`Except` or by matching on those oracles.
-/

namespace FinsorData

/-! ## Rate limiter state (src/middleware/rateLimiter.ts)

The JS store is a plain object mapping fingerprint keys to
`{ count, resetTime }` records, mutated in place.  We model it as an
association list together with lookup/update helpers. -/

/-- One `RateLimitStore` record: `{ count: number; resetTime: number }`. -/
structure RLEntry where
  count : Nat
  resetTime : Nat
deriving DecidableEq, Repr

/-- Configuration of `RateLimiter`: `windowMs` and `maxRequests`. -/
structure RLConfig where
  windowMs : Nat
  maxRequests : Nat
deriving DecidableEq, Repr

/-- The limiter's store: fingerprint key to entry, first binding wins. -/
abbrev RLStore := List (String × RLEntry)

/-- Lookup `this.store[key]` (first binding for the key). -/
def findEntry : RLStore → String → Option RLEntry
  | [], _ => none
  | (k, e) :: rest, key => if k = key then some e else findEntry rest key

/-- Update `this.store[key] = e` (replace the first binding, else append). -/
def setEntry : RLStore → String → RLEntry → RLStore
  | [], key, e => [(key, e)]
  | (k, e0) :: rest, key, e =>
    if k = key then (key, e) :: rest else (k, e0) :: setEntry rest key e

/-- The "get or create entry" step of `RateLimiter.middleware`:
`if (!this.store[key]) this.store[key] = { count: 0, resetTime: now + this.windowMs }`. -/
def currentEntry (cfg : RLConfig) (store : RLStore) (key : String) (now : Nat) :
    RLEntry :=
  match findEntry store key with
  | none => ⟨0, now + cfg.windowMs⟩
  | some e => e

/-- The lazy window reset of `RateLimiter.middleware`:
`if (now >= entry.resetTime) { entry.count = 0; entry.resetTime = now + this.windowMs }`. -/
def rolledEntry (cfg : RLConfig) (now : Nat) (e : RLEntry) : RLEntry :=
  if e.resetTime ≤ now then ⟨0, now + cfg.windowMs⟩ else e

/-- One invocation of `RateLimiter.middleware` for fingerprint `key` at time
`now`: create the entry if missing (`count = 0`, `resetTime = now + windowMs`);
lazily reset it when `now >= resetTime`; deny without incrementing when
`count >= maxRequests`; otherwise increment and allow.  Returns the updated
store and the admission decision (`true` = request allowed / `next()`).
The JS entry object is mutated in place, so the created/reset entry persists
even on a denied request — hence `setEntry` in both branches. -/
def middlewareStep (cfg : RLConfig) (store : RLStore) (key : String) (now : Nat) :
    RLStore × Bool :=
  let entry1 : RLEntry := rolledEntry cfg now (currentEntry cfg store key now)
  if cfg.maxRequests ≤ entry1.count then
    (setEntry store key entry1, false)
  else
    (setEntry store key ⟨entry1.count + 1, entry1.resetTime⟩, true)

/-- Run a sequence of middleware invocations for one fingerprint, returning
the final store and the list of admission decisions in order. -/
def runSeq (cfg : RLConfig) (store : RLStore) (key : String) :
    List Nat → RLStore × List Bool
  | [] => (store, [])
  | t :: ts =>
    let r := middlewareStep cfg store key t
    let rest := runSeq cfg r.1 key ts
    (rest.1, r.2 :: rest.2)

/-- `RateLimiter.cleanup` at time `now`: delete exactly the entries with
`now >= entry.resetTime && entry.count === 0`. -/
def cleanup (now : Nat) (store : RLStore) : RLStore :=
  store.filter (fun kv => !(decide (kv.2.resetTime ≤ now) && decide (kv.2.count = 0)))

/-- An observable event of the limiter process: a request from some
fingerprint, or a timer-driven cleanup sweep. -/
inductive RLEvent where
  | req (key : String) (now : Nat)
  | sweep (now : Nat)
deriving DecidableEq, Repr

/-- Run a list of limiter events against a store. -/
def runEvents (cfg : RLConfig) (store : RLStore) : List RLEvent → RLStore
  | [] => store
  | RLEvent.req k t :: evs => runEvents cfg (middlewareStep cfg store k t).1 evs
  | RLEvent.sweep t :: evs => runEvents cfg (cleanup t store) evs

/-! ### Rate-limiter lemmas -/

theorem findEntry_setEntry_same (s : RLStore) (k : String) (e : RLEntry) :
    findEntry (setEntry s k e) k = some e := by
  induction s with
  | nil => simp [setEntry, findEntry]
  | cons kv rest ih =>
    obtain ⟨k0, e0⟩ := kv
    by_cases h : k0 = k
    · simp [setEntry, findEntry, h]
    · simp [setEntry, findEntry, h, ih]

theorem findEntry_setEntry_ne (s : RLStore) (k k' : String) (e : RLEntry)
    (h : k ≠ k') : findEntry (setEntry s k' e) k = findEntry s k := by
  induction s with
  | nil => simp [setEntry, findEntry, Ne.symm h]
  | cons kv rest ih =>
    obtain ⟨k0, e0⟩ := kv
    by_cases h0 : k0 = k'
    · subst h0
      simp [setEntry, findEntry, Ne.symm h]
    · simp only [setEntry, if_neg h0]
      by_cases h1 : k0 = k
      · simp [findEntry, h1]
      · simp [findEntry, h1, ih]

theorem findEntry_filter (p : String × RLEntry → Bool) (s : RLStore)
    (key : String) (en : RLEntry) (hf : findEntry s key = some en)
    (hp : p (key, en) = true) :
    findEntry (s.filter p) key = some en := by
  induction s with
  | nil => simp [findEntry] at hf
  | cons kv rest ih =>
    obtain ⟨k0, e0⟩ := kv
    by_cases h0 : k0 = key
    · subst h0
      simp [findEntry] at hf
      subst hf
      simp [List.filter, hp, findEntry]
    · simp [findEntry, h0] at hf
      by_cases hkeep : p (k0, e0) = true
      · simp [List.filter, hkeep, findEntry, h0, ih hf]
      · simp only [Bool.not_eq_true] at hkeep
        simp [List.filter, hkeep, ih hf]

/-- Within one live window (every request time strictly before the entry's
`resetTime`), starting from an entry with count `c ≤ maxRequests`, the `i`-th
request is admitted iff `c + i < maxRequests`, and the final count is
`min (c + len) maxRequests` with `resetTime` unchanged. -/
theorem runSeq_window (cfg : RLConfig) (key : String) (times : List Nat) :
    ∀ (store : RLStore) (c R : Nat), findEntry store key = some ⟨c, R⟩ →
    c ≤ cfg.maxRequests → (∀ t ∈ times, t < R) →
    (runSeq cfg store key times).2 =
      (List.range times.length).map (fun i => decide (c + i < cfg.maxRequests)) ∧
    findEntry (runSeq cfg store key times).1 key =
      some ⟨min (c + times.length) cfg.maxRequests, R⟩ := by
  induction times with
  | nil =>
    intro store c R hf hc _
    simpa [runSeq, hf] using Nat.min_eq_left (by omega)
  | cons t ts ih =>
    intro store c R hf hc htimes
    have ht : t < R := htimes t (by simp)
    have hts : ∀ u ∈ ts, u < R := fun u hu => htimes u (by simp [hu])
    by_cases hlim : cfg.maxRequests ≤ c
    · -- denied: count stays, entry rewritten unchanged
      have hceq : c = cfg.maxRequests := le_antisymm hc hlim
      have hstep : middlewareStep cfg store key t =
          (setEntry store key ⟨c, R⟩, false) := by
        simp [middlewareStep, currentEntry, rolledEntry, hf, Nat.not_le.mpr ht, hlim]
      have hf' : findEntry (setEntry store key ⟨c, R⟩) key = some ⟨c, R⟩ :=
        findEntry_setEntry_same _ _ _
      obtain ⟨h1, h2⟩ := ih (setEntry store key ⟨c, R⟩) c R hf' hc hts
      refine ⟨?_, ?_⟩
      · simp only [runSeq, hstep, h1, List.length_cons, List.range_succ_eq_map,
          List.map_cons, List.map_map]
        congr 1
        · have hh : ¬ (c + 0 < cfg.maxRequests) := by omega
          simp [hh]
          omega
        · refine List.map_congr_left (fun i _ => ?_)
          simp only [Function.comp, Nat.succ_eq_add_one]
          rw [decide_eq_decide]
          omega
      · simp only [runSeq, hstep, h2, List.length_cons]
        congr 2
        omega
    · -- admitted: count increments, resetTime unchanged
      have hlt : c < cfg.maxRequests := Nat.not_le.mp hlim
      have hstep : middlewareStep cfg store key t =
          (setEntry store key ⟨c + 1, R⟩, true) := by
        simp [middlewareStep, currentEntry, rolledEntry, hf, Nat.not_le.mpr ht,
          Nat.not_le.mpr hlt]
      have hf' : findEntry (setEntry store key ⟨c + 1, R⟩) key = some ⟨c + 1, R⟩ :=
        findEntry_setEntry_same _ _ _
      obtain ⟨h1, h2⟩ := ih (setEntry store key ⟨c + 1, R⟩) (c + 1) R hf' hlt hts
      refine ⟨?_, ?_⟩
      · simp only [runSeq, hstep, h1, List.length_cons, List.range_succ_eq_map,
          List.map_cons, List.map_map]
        congr 1
        · have hh : c + 0 < cfg.maxRequests := by omega
          simp [hh]
          omega
        · refine List.map_congr_left (fun i _ => ?_)
          simp only [Function.comp, Nat.succ_eq_add_one]
          rw [decide_eq_decide]
          omega
      · simp only [runSeq, hstep, h2, List.length_cons]
        congr 2
        omega

/-- The very first request from a fresh fingerprint: the entry is created
with `count = 0`, `resetTime = now + windowMs`, then admitted and bumped to
`count = 1`. -/
theorem middlewareStep_fresh (cfg : RLConfig) (store : RLStore) (key : String)
    (t0 : Nat) (hN : 1 ≤ cfg.maxRequests) (hfresh : findEntry store key = none) :
    middlewareStep cfg store key t0 =
      (setEntry store key ⟨1, t0 + cfg.windowMs⟩, true) := by
  have h0 : ¬ (cfg.maxRequests ≤ 0) := by omega
  simp [middlewareStep, currentEntry, rolledEntry, hfresh, ite_self, h0]

/-- Claim C2: for every fingerprint, with window `W` and cap `N ≥ 1`: a run
of requests starting from a fresh entry at `t0`, all within the window
`[t0, t0 + W)`, admits exactly the first `N` requests (the `i`-th decision is
`i < N`); the count after the first `k + 1` requests is `min (k + 1) N`, so
each admitted request increments it by one and a denied request does not;
and as soon as `now` reaches `resetAt = t0 + W`, the next request is admitted
with count 1 and `resetAt` advanced to `now + W`. -/
theorem rateLimiter_window_and_reset (cfg : RLConfig) (key : String)
    (store0 : RLStore) (t0 : Nat) (rest : List Nat)
    (hN : 1 ≤ cfg.maxRequests)
    (hfresh : findEntry store0 key = none)
    (hrest : ∀ t ∈ rest, t < t0 + cfg.windowMs) :
    (runSeq cfg store0 key (t0 :: rest)).2 =
      (List.range (rest.length + 1)).map (fun i => decide (i < cfg.maxRequests)) ∧
    (∀ k, k ≤ rest.length →
      findEntry (runSeq cfg store0 key (t0 :: rest.take k)).1 key =
        some ⟨min (k + 1) cfg.maxRequests, t0 + cfg.windowMs⟩) ∧
    (∀ now2, t0 + cfg.windowMs ≤ now2 →
      (middlewareStep cfg (runSeq cfg store0 key (t0 :: rest)).1 key now2).2 = true ∧
      findEntry (middlewareStep cfg (runSeq cfg store0 key (t0 :: rest)).1 key now2).1
        key = some ⟨1, now2 + cfg.windowMs⟩) := by
  have hstep0 := middlewareStep_fresh cfg store0 key t0 hN hfresh
  have hf1 : findEntry (setEntry store0 key ⟨1, t0 + cfg.windowMs⟩) key =
      some ⟨1, t0 + cfg.windowMs⟩ := findEntry_setEntry_same _ _ _
  obtain ⟨hdec, hcount⟩ :=
    runSeq_window cfg key rest (setEntry store0 key ⟨1, t0 + cfg.windowMs⟩)
      1 (t0 + cfg.windowMs) hf1 hN hrest
  refine ⟨?_, ?_, ?_⟩
  · simp only [runSeq, hstep0, hdec, List.length_cons, List.range_succ_eq_map,
      List.map_cons, List.map_map]
    congr 1
    · have hh : 0 < cfg.maxRequests := by omega
      simp [hh]
    · refine List.map_congr_left (fun i _ => ?_)
      simp only [Function.comp, Nat.succ_eq_add_one]
      rw [decide_eq_decide]
      omega
  · intro k hk
    have hsub : ∀ t ∈ rest.take k, t < t0 + cfg.windowMs :=
      fun t ht => hrest t (List.take_subset k rest ht)
    obtain ⟨_, hcount'⟩ :=
      runSeq_window cfg key (rest.take k) (setEntry store0 key ⟨1, t0 + cfg.windowMs⟩)
        1 (t0 + cfg.windowMs) hf1 hN hsub
    simp only [runSeq, hstep0, hcount']
    congr 2
    rw [List.length_take]
    omega
  · intro now2 hnow2
    have hF : findEntry (runSeq cfg store0 key (t0 :: rest)).1 key =
        some ⟨min (1 + rest.length) cfg.maxRequests, t0 + cfg.windowMs⟩ := by
      simpa [runSeq, hstep0] using hcount
    have h0 : ¬ (cfg.maxRequests ≤ 0) := by omega
    constructor
    · simp [middlewareStep, currentEntry, rolledEntry, hF, hnow2, h0]
    · simp [middlewareStep, currentEntry, rolledEntry, hF, hnow2, h0,
        findEntry_setEntry_same]

/-- Witness for `rateLimiter_window_and_reset`: window 1000 ms, cap 2,
requests at 0, 1, 2, 3 (all inside the first window) give decisions
`[allow, allow, deny, deny]`, count 1 after the first request, count 2 at the
end of the window, and a request at time 5000 is admitted with count 1 and
`resetTime = 6000`. -/
theorem rateLimiter_window_and_reset_witness :
    (runSeq ⟨1000, 2⟩ [] "1.2.3.4:ua" [0, 1, 2, 3]).2 = [true, true, false, false] ∧
    findEntry (runSeq ⟨1000, 2⟩ [] "1.2.3.4:ua" [0]).1 "1.2.3.4:ua" = some ⟨1, 1000⟩ ∧
    findEntry (runSeq ⟨1000, 2⟩ [] "1.2.3.4:ua" [0, 1, 2, 3]).1 "1.2.3.4:ua" =
      some ⟨2, 1000⟩ ∧
    (middlewareStep ⟨1000, 2⟩ (runSeq ⟨1000, 2⟩ [] "1.2.3.4:ua" [0, 1, 2, 3]).1
      "1.2.3.4:ua" 5000).2 = true ∧
    findEntry (middlewareStep ⟨1000, 2⟩ (runSeq ⟨1000, 2⟩ [] "1.2.3.4:ua" [0, 1, 2, 3]).1
      "1.2.3.4:ua" 5000).1 "1.2.3.4:ua" = some ⟨1, 6000⟩ := by
  obtain ⟨h1, h2, h3⟩ :=
    rateLimiter_window_and_reset ⟨1000, 2⟩ "1.2.3.4:ua" [] 0 [1, 2, 3]
      (by decide) rfl (by decide)
  obtain ⟨h4, h5⟩ := h3 5000 (by decide)
  have h20 := h2 0 (by decide)
  have h23 := h2 3 (by decide)
  have ht0 : (0 : Nat) :: List.take 0 [1, 2, 3] = [0] := rfl
  have ht3 : (0 : Nat) :: List.take 3 [1, 2, 3] = [0, 1, 2, 3] := rfl
  rw [ht0] at h20
  rw [ht3] at h23
  exact ⟨by rw [h1]; decide, by rw [h20]; decide, by rw [h23]; decide,
    by simpa using h4, by simpa using h5⟩

/-- After any single middleware invocation for `key` (with cap at least 1),
the entry stored for `key` has `count ≥ 1`: creation/reset leaves count 0
only transiently, and both the allow branch (increment) and the deny branch
(count already at the cap) write back a positive count. -/
theorem middlewareStep_post_count (cfg : RLConfig) (store : RLStore)
    (key : String) (now : Nat) (hN : 1 ≤ cfg.maxRequests) :
    ∃ en : RLEntry, findEntry (middlewareStep cfg store key now).1 key = some en ∧
      1 ≤ en.count := by
  by_cases hd : cfg.maxRequests ≤ (rolledEntry cfg now (currentEntry cfg store key now)).count
  · exact ⟨rolledEntry cfg now (currentEntry cfg store key now),
      by simp [middlewareStep, hd, findEntry_setEntry_same], by omega⟩
  · exact ⟨⟨(rolledEntry cfg now (currentEntry cfg store key now)).count + 1,
      (rolledEntry cfg now (currentEntry cfg store key now)).resetTime⟩,
      by simp [middlewareStep, hd, findEntry_setEntry_same],
      Nat.succ_le_succ (Nat.zero_le _)⟩

/-- Whether an event is a request from the given fingerprint. -/
def isReqFor (key : String) : RLEvent → Bool
  | RLEvent.req k _ => k = key
  | RLEvent.sweep _ => false

/-- A middleware invocation for a different fingerprint leaves `key`'s
binding unchanged. -/
theorem findEntry_middlewareStep_ne (cfg : RLConfig) (store : RLStore)
    (key k : String) (now : Nat) (h : key ≠ k) :
    findEntry (middlewareStep cfg store k now).1 key = findEntry store key := by
  by_cases hd : cfg.maxRequests ≤ (rolledEntry cfg now (currentEntry cfg store k now)).count
  · simp [middlewareStep, hd, findEntry_setEntry_ne _ _ _ _ h]
  · simp [middlewareStep, hd, findEntry_setEntry_ne _ _ _ _ h]

/-- `cleanup` keeps every entry whose count is positive. -/
theorem findEntry_cleanup (now : Nat) (store : RLStore) (key : String)
    (en : RLEntry) (hf : findEntry store key = some en) (hc : 1 ≤ en.count) :
    findEntry (cleanup now store) key = some en := by
  refine findEntry_filter _ store key en hf ?_
  have : ¬ (en.count = 0) := by omega
  simp [this]

/-- Running any sequence of events that contains no request from `key`
leaves a positive-count entry for `key` untouched: other fingerprints'
requests update only their own bindings, and the sweep only deletes
zero-count entries. -/
theorem runEvents_preserves_entry (cfg : RLConfig) (events : List RLEvent) :
    ∀ (store : RLStore) (key : String) (en : RLEntry),
    findEntry store key = some en → 1 ≤ en.count →
    (∀ ev ∈ events, isReqFor key ev = false) →
    findEntry (runEvents cfg store events) key = some en := by
  induction events with
  | nil => intro store key en hf _ _; simpa [runEvents] using hf
  | cons ev evs ih =>
    intro store key en hf hc hno
    have hno' : ∀ e ∈ evs, isReqFor key e = false :=
      fun e he => hno e (by simp [he])
    cases ev with
    | req k t =>
      have hk : key ≠ k := by
        have := hno (RLEvent.req k t) (by simp)
        simp [isReqFor] at this
        exact fun h => this h.symm
      have hstep : findEntry (middlewareStep cfg store k t).1 key = some en := by
        rw [findEntry_middlewareStep_ne cfg store key k t hk]; exact hf
      simpa [runEvents] using ih (middlewareStep cfg store k t).1 key en hstep hc hno'
    | sweep t =>
      have hstep : findEntry (cleanup t store) key = some en :=
        findEntry_cleanup t store key en hf hc
      simpa [runEvents] using ih (cleanup t store) key en hstep hc hno'

/-- Claim C10: once a fingerprint has been through the middleware (cap at
least 1), its entry has `count ≥ 1`, and if that fingerprint then stops
sending requests, no later activity — other fingerprints' requests or
periodic cleanup sweeps at any times — ever removes or changes its entry:
the sweep deletes only zero-count expired entries, so the entry persists for
the process lifetime. -/
theorem rateLimiter_admitted_entry_never_swept (cfg : RLConfig)
    (store : RLStore) (key : String) (now : Nat) (events : List RLEvent)
    (hN : 1 ≤ cfg.maxRequests)
    (hno : ∀ ev ∈ events, isReqFor key ev = false) :
    ∃ en : RLEntry,
      findEntry (middlewareStep cfg store key now).1 key = some en ∧
      1 ≤ en.count ∧
      findEntry (runEvents cfg (middlewareStep cfg store key now).1 events) key =
        some en := by
  obtain ⟨en, hf, hc⟩ := middlewareStep_post_count cfg store key now hN
  exact ⟨en, hf, hc,
    runEvents_preserves_entry cfg events (middlewareStep cfg store key now).1
      key en hf hc hno⟩

/-- Witness for `rateLimiter_admitted_entry_never_swept`: one request from
`"1.1.1.1:ua"` at time 0, followed by a sweep well after the window, a
request from another client, and another sweep — the entry survives. -/
theorem rateLimiter_admitted_entry_never_swept_witness :
    ∃ en : RLEntry,
      findEntry (middlewareStep ⟨60000, 100⟩ [] "1.1.1.1:ua" 0).1 "1.1.1.1:ua" =
        some en ∧
      1 ≤ en.count ∧
      findEntry (runEvents ⟨60000, 100⟩ (middlewareStep ⟨60000, 100⟩ [] "1.1.1.1:ua" 0).1
        [RLEvent.sweep 120000, RLEvent.req "9.9.9.9:ua" 130000,
         RLEvent.sweep 999999999]) "1.1.1.1:ua" = some en :=
  rateLimiter_admitted_entry_never_swept ⟨60000, 100⟩ [] "1.1.1.1:ua" 0
    [RLEvent.sweep 120000, RLEvent.req "9.9.9.9:ua" 130000,
     RLEvent.sweep 999999999] (by decide) (by decide)

/-! ## Cache abstraction (src/services/cacheService.ts)

Each `CacheService` operation first checks `this.isConnected` and then calls
the Redis client inside `try`/`catch`.  The client call's outcome is modelled
by an oracle value: either the resolved value (`ok`) or a thrown error
(`err`).  The cache key / pattern arguments do not influence the control flow
being verified (the oracle already fixes the client's response), so they are
carried as unused `_key` parameters. -/

/-- Outcome of an awaited Redis client call: resolved value or thrown error. -/
inductive ClientRes (α : Type) where
  | ok (val : α)
  | err
deriving DecidableEq, Repr

/-- JS truthiness of the `ttlSeconds?: number` argument: `if (ttlSeconds)`
is false for `undefined` and for `0`. -/
def ttlTruthy : Option Nat → Bool
  | some t => decide (t ≠ 0)
  | none => false

/-- JS truthiness of a `string | null` value: `if (cached)` is false for
`null` and for the empty string. -/
def isTruthy : Option String → Bool
  | some s => decide (s ≠ "")
  | none => false

/-- `CacheService.get`: `null` when disconnected; the client's value on
success; `null` when the client throws. -/
def cacheGet (connected : Bool) (_key : String)
    (clientGet : ClientRes (Option String)) : Option String :=
  if !connected then none
  else match clientGet with
    | ClientRes.ok v => v
    | ClientRes.err => none

/-- `CacheService.set`: `false` when disconnected; `setEx` when the TTL is
truthy, plain `set` otherwise; `true` on success, `false` when the client
throws. -/
def cacheSet (connected : Bool) (_key : String) (ttlSeconds : Option Nat)
    (clientSetEx clientSet : ClientRes Unit) : Bool :=
  if !connected then false
  else match (if ttlTruthy ttlSeconds then clientSetEx else clientSet) with
    | ClientRes.ok _ => true
    | ClientRes.err => false

/-- `CacheService.del`: `false` when disconnected; `result > 0` on success;
`false` when the client throws. -/
def cacheDel (connected : Bool) (_key : String) (clientDel : ClientRes Nat) :
    Bool :=
  if !connected then false
  else match clientDel with
    | ClientRes.ok n => decide (0 < n)
    | ClientRes.err => false

/-- `CacheService.exists`: `false` when disconnected; `result > 0` on
success; `false` when the client throws. -/
def cacheExists (connected : Bool) (_key : String)
    (clientExists : ClientRes Nat) : Bool :=
  if !connected then false
  else match clientExists with
    | ClientRes.ok n => decide (0 < n)
    | ClientRes.err => false

/-- `CacheService.keys`: `[]` when disconnected; the client's list on
success; `[]` when the client throws. -/
def cacheKeys (connected : Bool) (_pattern : String)
    (clientKeys : ClientRes (List String)) : List String :=
  if !connected then []
  else match clientKeys with
    | ClientRes.ok ks => ks
    | ClientRes.err => []

/-- `CacheService.flushPattern`: `0` when disconnected; otherwise list the
matching keys via `this.keys` (itself total), return `0` for an empty match,
and otherwise the multi-delete count, or `0` when the delete throws. -/
def cacheFlushPattern (connected : Bool) (pattern : String)
    (clientKeys : ClientRes (List String)) (clientDelMulti : ClientRes Nat) :
    Nat :=
  if !connected then 0
  else
    let ks := cacheKeys connected pattern clientKeys
    if ks.length = 0 then 0
    else match clientDelMulti with
      | ClientRes.ok n => n
      | ClientRes.err => 0

/-- Observable trace of one `CacheService.getOrSet` call. -/
structure GetOrSetTrace (T : Type) where
  value : T
  fetcherCalls : Nat
  delCalls : Nat
  setAttempts : Nat
  setPayload : Option String
  setResult : Bool

/-- `CacheService.getOrSet`: read the key; on a truthy hit try to
deserialize and return the decoded value; if deserialization throws, warn,
delete the corrupt key, and fall through; on the fall-through/miss path call
the fetcher once, serialize, attempt `set`, and return the fresh value
whatever `set` returned. -/
def getOrSet {T : Type} (connected : Bool) (key : String)
    (clientGet : ClientRes (Option String)) (deserialize : String → Option T)
    (serialize : T → String) (fetcher : T) (ttlSeconds : Option Nat)
    (_clientDel : ClientRes Nat) (clientSetEx clientSet : ClientRes Unit) :
    GetOrSetTrace T :=
  match cacheGet connected key clientGet with
  | some s =>
    if s = "" then
      ⟨fetcher, 1, 0, 1, some (serialize fetcher),
        cacheSet connected key ttlSeconds clientSetEx clientSet⟩
    else match deserialize s with
      | some v => ⟨v, 0, 0, 0, none, false⟩
      | none =>
        ⟨fetcher, 1, 1, 1, some (serialize fetcher),
          cacheSet connected key ttlSeconds clientSetEx clientSet⟩
  | none =>
    ⟨fetcher, 1, 0, 1, some (serialize fetcher),
      cacheSet connected key ttlSeconds clientSetEx clientSet⟩

/-- Claim C7: every cache operation is total and degrades rather than
raising: with the connection flag down every operation returns its miss /
no-op value for any client behaviour, and with the connection up but the
client call throwing, `get` is `null`, `set` is `false`, `del` is `false`,
`exists` is `false`, `keys` is `[]`, and `flushPattern` is `0` (whether the
key listing or the multi-delete throws). -/
theorem cacheService_total_degrade (k : String) (g : ClientRes (Option String))
    (ttl : Option Nat) (sx s : ClientRes Unit) (d e : ClientRes Nat)
    (ks : ClientRes (List String)) (dm : ClientRes Nat) :
    (cacheGet false k g = none ∧
     cacheSet false k ttl sx s = false ∧
     cacheDel false k d = false ∧
     cacheExists false k e = false ∧
     cacheKeys false k ks = [] ∧
     cacheFlushPattern false k ks dm = 0) ∧
    (cacheGet true k ClientRes.err = none ∧
     cacheSet true k ttl ClientRes.err ClientRes.err = false ∧
     cacheDel true k ClientRes.err = false ∧
     cacheExists true k ClientRes.err = false ∧
     cacheKeys true k ClientRes.err = [] ∧
     cacheFlushPattern true k ClientRes.err dm = 0 ∧
     cacheFlushPattern true k ks ClientRes.err = 0) := by
  refine ⟨⟨rfl, rfl, rfl, rfl, rfl, rfl⟩, rfl, ?_, rfl, rfl, rfl, ?_, ?_⟩
  · simp [cacheSet, ite_self]
  · cases dm <;> rfl
  · cases ks with
    | ok l => simp [cacheFlushPattern, cacheKeys]
    | err => rfl

/-- Claim C4: `getOrSet` on a miss calls the fetcher exactly once, attempts
to store the serialized result, and returns the fresh value whatever the
write returned; on a truthy hit that fails to deserialize it deletes the
corrupt key and likewise falls through to exactly one fetcher call (no retry
loop); on a truthy hit that deserializes it returns the decoded value with
no fetcher call. -/
theorem cacheService_getOrSet_spec {T : Type} (connected : Bool) (key : String)
    (clientGet : ClientRes (Option String)) (deserialize : String → Option T)
    (serialize : T → String) (fetcher : T) (ttlSeconds : Option Nat)
    (clientDel : ClientRes Nat) (clientSetEx clientSet : ClientRes Unit) :
    (cacheGet connected key clientGet = none →
      getOrSet connected key clientGet deserialize serialize fetcher ttlSeconds
          clientDel clientSetEx clientSet =
        ⟨fetcher, 1, 0, 1, some (serialize fetcher),
          cacheSet connected key ttlSeconds clientSetEx clientSet⟩) ∧
    (∀ s : String, cacheGet connected key clientGet = some s → s ≠ "" →
      deserialize s = none →
      getOrSet connected key clientGet deserialize serialize fetcher ttlSeconds
          clientDel clientSetEx clientSet =
        ⟨fetcher, 1, 1, 1, some (serialize fetcher),
          cacheSet connected key ttlSeconds clientSetEx clientSet⟩) ∧
    (∀ (s : String) (v : T), cacheGet connected key clientGet = some s →
      s ≠ "" → deserialize s = some v →
      getOrSet connected key clientGet deserialize serialize fetcher ttlSeconds
          clientDel clientSetEx clientSet = ⟨v, 0, 0, 0, none, false⟩) := by
  refine ⟨fun h => ?_, fun s hs hne hd => ?_, fun s v hs hne hd => ?_⟩
  · simp [getOrSet, h]
  · simp [getOrSet, hs, hne, hd]
  · simp [getOrSet, hs, hne, hd]

/-- Witness for `cacheService_getOrSet_spec`: a connected cache holding the
corrupt payload `"oops"` (deserialization fails on everything), with the TTL
write itself failing: the corrupt key is deleted, the fetcher runs once, and
the fresh value 42 is returned even though the write failed. -/
theorem cacheService_getOrSet_spec_witness :
    getOrSet true "news_latest" (ClientRes.ok (some "oops"))
        (fun _ => (none : Option Nat)) (fun n => toString n) 42 (some 60)
        (ClientRes.ok 1) ClientRes.err ClientRes.err =
      ⟨42, 1, 1, 1, some "42", false⟩ := by
  have h := (cacheService_getOrSet_spec true "news_latest"
    (ClientRes.ok (some "oops")) (fun _ => (none : Option Nat))
    (fun n => toString n) 42 (some 60) (ClientRes.ok 1) ClientRes.err
    ClientRes.err).2.1 "oops" rfl (by decide) rfl
  simpa using h

/-! ## Ingestion scheduler (src/services/schedulerService.ts)

Each of the six `ingest*` pipelines has the same shape: check the cache
dedup marker; if absent, fetch; if the fetch returned items, store them and
write the marker with the source's configured TTL; catch and log any
exception.  The collaborators' behaviour in one invocation is an oracle
(`PipelineOracle`); the observable work is a `PipelineEffects` record.
The `try`/`catch` around the body is the `Except` wrapper in
`runPipeline`. -/

/-- Result of the fetch collaborator (`dataSourceService.fetch*`): a list of
items, or a thrown error. -/
inductive FetchResult where
  | ok (items : List String)
  | err
deriving DecidableEq, Repr

/-- Result of the store collaborator (`vectorService.addData`). -/
inductive StoreResult where
  | ok
  | err
deriving DecidableEq, Repr

/-- The collaborator responses for one pipeline invocation: the dedup-marker
read (`cacheService.get`, total), the fetch, the store, and the marker write
(`cacheService.set`, total). -/
structure PipelineOracle where
  marker : Option String
  fetch : FetchResult
  store : StoreResult
  setOk : Bool
deriving DecidableEq, Repr

/-- The observable work of one pipeline invocation. -/
structure PipelineEffects where
  fetchCalls : Nat
  storeCalls : Nat
  storedItems : List String
  markerWrites : Nat
  markerTtl : Option Nat
deriving DecidableEq, Repr

/-- No fetch, no store, no marker write. -/
def noEffects : PipelineEffects := ⟨0, 0, [], 0, none⟩

/-- The body of an ingest pipeline (inside its `try`): skip when the dedup
marker is truthy; fetch; when the fetch returns at least one item, store the
full result set and write the marker with TTL `ttl`.  A collaborator throw
is the `Except.error` case, carrying the effects performed up to the
throw. -/
def pipelineBody (ttl : Nat) (o : PipelineOracle) :
    Except PipelineEffects PipelineEffects :=
  if isTruthy o.marker then Except.ok noEffects
  else match o.fetch with
    | FetchResult.err => Except.error ⟨1, 0, [], 0, none⟩
    | FetchResult.ok items =>
      if 0 < items.length then
        match o.store with
        | StoreResult.err => Except.error ⟨1, 1, items, 0, none⟩
        | StoreResult.ok => Except.ok ⟨1, 1, items, 1, some ttl⟩
      else Except.ok ⟨1, 0, [], 0, none⟩

/-- An ingest pipeline with its `catch`: a thrown collaborator error is
logged and swallowed, so the invocation always returns normally. -/
def runPipeline (ttl : Nat) (o : PipelineOracle) : PipelineEffects :=
  match pipelineBody ttl o with
  | Except.ok e => e
  | Except.error e => e

/-- `config.cache.ttl`: the per-source dedup-marker TTLs (seconds). -/
structure CacheTtlConfig where
  news : Nat
  crypto : Nat
  stocks : Nat
  trends : Nat
  rates : Nat
  economic : Nat
deriving DecidableEq, Repr

/-- The values in `src/config/index.ts`. -/
def defaultTtl : CacheTtlConfig := ⟨900, 300, 600, 21600, 604800, 604800⟩

/-- `SchedulerService.ingestNews` (cache key `news_latest`). -/
def ingestNews (cfg : CacheTtlConfig) (o : PipelineOracle) : PipelineEffects :=
  runPipeline cfg.news o

/-- `SchedulerService.ingestCrypto` (cache key `crypto_latest`). -/
def ingestCrypto (cfg : CacheTtlConfig) (o : PipelineOracle) : PipelineEffects :=
  runPipeline cfg.crypto o

/-- `SchedulerService.ingestStocks` (cache key `stocks_latest`). -/
def ingestStocks (cfg : CacheTtlConfig) (o : PipelineOracle) : PipelineEffects :=
  runPipeline cfg.stocks o

/-- `SchedulerService.ingestTrends` (cache key `trends_latest`). -/
def ingestTrends (cfg : CacheTtlConfig) (o : PipelineOracle) : PipelineEffects :=
  runPipeline cfg.trends o

/-- `SchedulerService.ingestRates` (cache key `rates_latest`). -/
def ingestRates (cfg : CacheTtlConfig) (o : PipelineOracle) : PipelineEffects :=
  runPipeline cfg.rates o

/-- `SchedulerService.ingestEconomicData` (cache key `economic_latest`). -/
def ingestEconomicData (cfg : CacheTtlConfig) (o : PipelineOracle) :
    PipelineEffects :=
  runPipeline cfg.economic o

/-- The collaborator responses for all six pipelines in one fan-out. -/
structure AllOracles where
  news : PipelineOracle
  crypto : PipelineOracle
  stocks : PipelineOracle
  trends : PipelineOracle
  rates : PipelineOracle
  economic : PipelineOracle
deriving DecidableEq, Repr

/-- `SchedulerService.ingestAll`: `Promise.allSettled` over the six
pipelines; each branch is already total (its body catches), and the
aggregate collects every branch's settled outcome. -/
def ingestAll (cfg : CacheTtlConfig) (os : AllOracles) : List PipelineEffects :=
  [ingestNews cfg os.news, ingestCrypto cfg os.crypto, ingestStocks cfg os.stocks,
   ingestTrends cfg os.trends, ingestRates cfg os.rates,
   ingestEconomicData cfg os.economic]

/-- `SchedulerService.runOnce`: dispatch on the task name, running the named
pipeline (or all six) directly; an unknown name throws
`Unknown task type: ...`.  Note that the `stocks` case calls `ingestStocks`
directly — no market-hours check appears on this path. -/
def runOnce (cfg : CacheTtlConfig) (taskType : String) (os : AllOracles) :
    Except String (List PipelineEffects) :=
  match taskType with
  | "news" => Except.ok [ingestNews cfg os.news]
  | "crypto" => Except.ok [ingestCrypto cfg os.crypto]
  | "stocks" => Except.ok [ingestStocks cfg os.stocks]
  | "trends" => Except.ok [ingestTrends cfg os.trends]
  | "rates" => Except.ok [ingestRates cfg os.rates]
  | "economic" => Except.ok [ingestEconomicData cfg os.economic]
  | "all" => Except.ok (ingestAll cfg os)
  | other => Except.error ("Unknown task type: " ++ other)

/-- `SchedulerService.isMarketHours`: weekday check (`0` = Sunday, `6` =
Saturday) and hour check (9 to 15 inclusive). -/
def isMarketHours (day hour : Nat) : Bool :=
  if day = 0 || day = 6 then false
  else if hour < 9 || 16 ≤ hour then false
  else true

/-- The scheduled trigger registered for `stocks` in
`SchedulerService.start`: the pipeline body runs only when
`isMarketHours()` holds at the tick. -/
def scheduledStocksTick (cfg : CacheTtlConfig) (day hour : Nat)
    (o : PipelineOracle) : PipelineEffects :=
  if isMarketHours day hour then ingestStocks cfg o else noEffects

/-- Counterexample to claim C1: on a Sunday (`day = 0`, noon), the gate is
closed, yet a manual `runOnce("stocks")` with no dedup marker performs one
fetch and one store — `runOnce` dispatches straight to `ingestStocks`
without consulting `isMarketHours`, so it does bypass the trading-hours
gate. -/
theorem runOnce_stocks_gate_counterexample :
    isMarketHours 0 12 = false ∧
    runOnce defaultTtl "stocks"
      ⟨⟨none, FetchResult.ok [], StoreResult.ok, true⟩,
       ⟨none, FetchResult.ok [], StoreResult.ok, true⟩,
       ⟨none, FetchResult.ok ["AAPL stock price"], StoreResult.ok, true⟩,
       ⟨none, FetchResult.ok [], StoreResult.ok, true⟩,
       ⟨none, FetchResult.ok [], StoreResult.ok, true⟩,
       ⟨none, FetchResult.ok [], StoreResult.ok, true⟩⟩ =
      Except.ok [⟨1, 1, ["AAPL stock price"], 1, some 600⟩] := by
  exact ⟨rfl, rfl⟩

/-- Claim C1 (amended): the trading-hours gate applies only to the scheduled
`stocks` trigger — a scheduled tick with the gate closed performs no fetch
and no store — while a manual `runOnce("stocks")` dispatches directly to the
stocks pipeline regardless of the gate; `runOnce` still does not bypass the
cache-dedup check (a truthy marker yields zero fetch/store). -/
theorem runOnce_stocks_bypasses_gate_only (cfg : CacheTtlConfig)
    (day hour : Nat) (o : PipelineOracle) (os : AllOracles) :
    (isMarketHours day hour = false →
      scheduledStocksTick cfg day hour o = noEffects) ∧
    runOnce cfg "stocks" os = Except.ok [ingestStocks cfg os.stocks] ∧
    (isTruthy os.stocks.marker = true →
      runOnce cfg "stocks" os = Except.ok [noEffects]) := by
  refine ⟨fun h => ?_, rfl, fun h => ?_⟩
  · simp [scheduledStocksTick, h]
  · simp [runOnce, ingestStocks, runPipeline, pipelineBody, h]

/-- Witness for `runOnce_stocks_bypasses_gate_only`: Saturday 10:00 closes
the gate for a scheduled tick, and a `runOnce("stocks")` with a `fetched`
marker present does no work. -/
theorem runOnce_stocks_bypasses_gate_only_witness :
    scheduledStocksTick defaultTtl 6 10
      ⟨none, FetchResult.ok ["q"], StoreResult.ok, true⟩ = noEffects ∧
    runOnce defaultTtl "stocks"
      ⟨⟨none, FetchResult.ok [], StoreResult.ok, true⟩,
       ⟨none, FetchResult.ok [], StoreResult.ok, true⟩,
       ⟨some "fetched", FetchResult.ok ["q"], StoreResult.ok, true⟩,
       ⟨none, FetchResult.ok [], StoreResult.ok, true⟩,
       ⟨none, FetchResult.ok [], StoreResult.ok, true⟩,
       ⟨none, FetchResult.ok [], StoreResult.ok, true⟩⟩ =
      Except.ok [noEffects] := by
  obtain ⟨h1, _, h3⟩ := runOnce_stocks_bypasses_gate_only defaultTtl 6 10
    ⟨none, FetchResult.ok ["q"], StoreResult.ok, true⟩
    ⟨⟨none, FetchResult.ok [], StoreResult.ok, true⟩,
     ⟨none, FetchResult.ok [], StoreResult.ok, true⟩,
     ⟨some "fetched", FetchResult.ok ["q"], StoreResult.ok, true⟩,
     ⟨none, FetchResult.ok [], StoreResult.ok, true⟩,
     ⟨none, FetchResult.ok [], StoreResult.ok, true⟩,
     ⟨none, FetchResult.ok [], StoreResult.ok, true⟩⟩
  exact ⟨h1 rfl, h3 (by decide)⟩

/-- Claim C5: a pipeline invocation with a truthy dedup marker performs zero
fetch and zero store calls; with the marker absent and a fetch returning at
least one item (and the store returning), it performs exactly one fetch, one
store of the full result set, and one marker write with the source's
configured TTL; with the marker absent and an empty fetch result, it
performs the fetch but no store and writes no marker. -/
theorem pipeline_dedup_fetch_store_marker (ttl : Nat) (o : PipelineOracle) :
    (isTruthy o.marker = true → runPipeline ttl o = noEffects) ∧
    (∀ items : List String, isTruthy o.marker = false →
      o.fetch = FetchResult.ok items → 0 < items.length →
      o.store = StoreResult.ok → runPipeline ttl o = ⟨1, 1, items, 1, some ttl⟩) ∧
    (isTruthy o.marker = false → o.fetch = FetchResult.ok [] →
      runPipeline ttl o = ⟨1, 0, [], 0, none⟩) := by
  refine ⟨fun h => ?_, fun items h hf hlen hs => ?_, fun h hf => ?_⟩
  · simp [runPipeline, pipelineBody, h]
  · simp [runPipeline, pipelineBody, h, hf, hs, hlen]
  · simp [runPipeline, pipelineBody, h, hf]

/-- Witness for `pipeline_dedup_fetch_store_marker`: marker present gives no
work; marker absent with two crypto items gives one fetch, one store of
both items, and a marker write with TTL 300; marker absent with an empty
fetch gives one fetch only. -/
theorem pipeline_dedup_fetch_store_marker_witness :
    runPipeline 300 ⟨some "fetched", FetchResult.ok ["BTC"], StoreResult.ok, true⟩ =
      noEffects ∧
    runPipeline 300 ⟨none, FetchResult.ok ["BTC price", "ETH price"],
      StoreResult.ok, true⟩ = ⟨1, 1, ["BTC price", "ETH price"], 1, some 300⟩ ∧
    runPipeline 300 ⟨none, FetchResult.ok [], StoreResult.ok, true⟩ =
      ⟨1, 0, [], 0, none⟩ := by
  refine ⟨?_, ?_, ?_⟩
  · exact (pipeline_dedup_fetch_store_marker 300
      ⟨some "fetched", FetchResult.ok ["BTC"], StoreResult.ok, true⟩).1 (by decide)
  · exact (pipeline_dedup_fetch_store_marker 300
      ⟨none, FetchResult.ok ["BTC price", "ETH price"], StoreResult.ok, true⟩).2.1
      ["BTC price", "ETH price"] (by decide) rfl (by decide) rfl
  · exact (pipeline_dedup_fetch_store_marker 300
      ⟨none, FetchResult.ok [], StoreResult.ok, true⟩).2.2 (by decide) rfl

/-- Claim C6: `runOnce("all")` returns normally (an `ok` result, never a
raised error) for every collaborator behaviour; it runs all six pipelines
and reports one settled outcome per pipeline; and a pipeline whose fetch
throws has its error caught inside that pipeline (the body is an internal
`error`, the wrapped run returns partial effects with no marker) without
changing any of the other five pipelines' outcomes. -/
theorem ingestAll_settles_isolated (cfg : CacheTtlConfig) (os : AllOracles)
    (ofail : PipelineOracle) :
    runOnce cfg "all" os = Except.ok (ingestAll cfg os) ∧
    (ingestAll cfg os).length = 6 ∧
    ingestAll cfg os = [ingestNews cfg os.news, ingestCrypto cfg os.crypto,
      ingestStocks cfg os.stocks, ingestTrends cfg os.trends,
      ingestRates cfg os.rates, ingestEconomicData cfg os.economic] ∧
    (isTruthy ofail.marker = false → ofail.fetch = FetchResult.err →
      pipelineBody cfg.news ofail = Except.error ⟨1, 0, [], 0, none⟩ ∧
      ingestNews cfg ofail = ⟨1, 0, [], 0, none⟩ ∧
      runOnce cfg "all"
          ⟨ofail, os.crypto, os.stocks, os.trends, os.rates, os.economic⟩ =
        Except.ok [⟨1, 0, [], 0, none⟩, ingestCrypto cfg os.crypto,
          ingestStocks cfg os.stocks, ingestTrends cfg os.trends,
          ingestRates cfg os.rates, ingestEconomicData cfg os.economic]) := by
  refine ⟨rfl, rfl, rfl, fun hm hf => ⟨?_, ?_, ?_⟩⟩
  · simp [pipelineBody, hm, hf]
  · simp [ingestNews, runPipeline, pipelineBody, hm, hf]
  · simp [runOnce, ingestAll, ingestNews, runPipeline, pipelineBody, hm, hf]

/-- Witness for `ingestAll_settles_isolated`: with the news fetch throwing
and the other five pipelines behaving normally, `runOnce("all")` still
returns `ok` with all six settled outcomes. -/
theorem ingestAll_settles_isolated_witness :
    pipelineBody 900 ⟨none, FetchResult.err, StoreResult.ok, true⟩ =
      Except.error ⟨1, 0, [], 0, none⟩ ∧
    ingestNews defaultTtl ⟨none, FetchResult.err, StoreResult.ok, true⟩ =
      ⟨1, 0, [], 0, none⟩ ∧
    runOnce defaultTtl "all"
        ⟨⟨none, FetchResult.err, StoreResult.ok, true⟩,
         ⟨none, FetchResult.ok ["BTC"], StoreResult.ok, true⟩,
         ⟨some "fetched", FetchResult.ok [], StoreResult.ok, true⟩,
         ⟨none, FetchResult.ok ["trend"], StoreResult.ok, true⟩,
         ⟨none, FetchResult.ok [], StoreResult.ok, true⟩,
         ⟨none, FetchResult.ok ["CPI"], StoreResult.ok, true⟩⟩ =
      Except.ok [⟨1, 0, [], 0, none⟩, ⟨1, 1, ["BTC"], 1, some 300⟩, noEffects,
        ⟨1, 1, ["trend"], 1, some 21600⟩, ⟨1, 0, [], 0, none⟩,
        ⟨1, 1, ["CPI"], 1, some 604800⟩] := by
  obtain ⟨-, -, -, h4⟩ := ingestAll_settles_isolated defaultTtl
    ⟨⟨none, FetchResult.err, StoreResult.ok, true⟩,
     ⟨none, FetchResult.ok ["BTC"], StoreResult.ok, true⟩,
     ⟨some "fetched", FetchResult.ok [], StoreResult.ok, true⟩,
     ⟨none, FetchResult.ok ["trend"], StoreResult.ok, true⟩,
     ⟨none, FetchResult.ok [], StoreResult.ok, true⟩,
     ⟨none, FetchResult.ok ["CPI"], StoreResult.ok, true⟩⟩
    ⟨none, FetchResult.err, StoreResult.ok, true⟩
  obtain ⟨h1, h2, h3⟩ := h4 (by decide) rfl
  exact ⟨h1, h2, by rw [h3]; rfl⟩

/-! ## Filter predicate compiler (src/services/vectorService.ts, `query`)

`VectorService.query` builds a `conditions` array from the options object
and combines it into a `where` clause: `{ field: value }` equality objects,
`{ "$or": [...] }`, `{ "$and": [...] }`.  The untyped condition objects are
modelled as a closed variant type; `cmpField` covers range objects such as
`{ timestamp: { "$gte": n } }`, which the current source never produces. -/

/-- A node of the compiled condition tree. -/
inductive PredicateNode where
  | eqField (field : String) (value : String)
  | cmpField (field : String) (op : String) (bound : Nat)
  | orNode (children : List PredicateNode)
  | andNode (children : List PredicateNode)
deriving Repr

/-- The `query` options object: `type?: string[]`,
`timeRange?: { start: Date; end: Date }` (epoch milliseconds),
`symbols?: string[]`, `limit?: number`. -/
structure QueryFilter where
  type : Option (List String)
  timeRange : Option (Nat × Nat)
  symbols : Option (List String)
  limit : Option Nat
deriving Repr

/-- The type block: with a non-empty `type` array, a single value becomes
`{ type: t }` and several become `{ "$or": [ { type: t }, ... ] }`. -/
def typeConditions (f : QueryFilter) : List PredicateNode :=
  match f.type with
  | none => []
  | some [] => []
  | some [t] => [PredicateNode.eqField "type" t]
  | some ts => [PredicateNode.orNode (ts.map (fun t => PredicateNode.eqField "type" t))]

/-- The time-range block.  In the source the two range conditions
(`timestamp >= start`, `timestamp <= end`, converted to epoch seconds) are
commented out — "temporarily disabled for debugging" ChromaDB compatibility —
and the block only logs, so a present time range contributes no
conditions. -/
def timeRangeConditions (_f : QueryFilter) : List PredicateNode := []

/-- The symbol block: a single value becomes `{ symbol: s }` and several
become `{ "$or": [ { symbol: s }, ... ] }`. -/
def symbolConditions (f : QueryFilter) : List PredicateNode :=
  match f.symbols with
  | none => []
  | some [] => []
  | some [s] => [PredicateNode.eqField "symbol" s]
  | some ss => [PredicateNode.orNode (ss.map (fun s => PredicateNode.eqField "symbol" s))]

/-- The `conditions` array in source push order: type, time range, symbol. -/
def buildConditions (f : QueryFilter) : List PredicateNode :=
  typeConditions f ++ timeRangeConditions f ++ symbolConditions f

/-- The final `where` clause: `undefined` for no conditions, the bare
condition for exactly one, `{ "$and": conditions }` for more. -/
def whereClause (f : QueryFilter) : Option PredicateNode :=
  match buildConditions f with
  | [] => none
  | [c] => some c
  | cs => some (PredicateNode.andNode cs)

/-- Counterexample to claim C3: a filter consisting of only a time range
compiles to no conditions at all — the compiled output contains neither of
the two inclusive bound conditions the claim requires, because the source's
time-range branch is disabled and only logs. -/
theorem timeRange_compiles_counterexample :
    buildConditions ⟨none, some (0, 5000000), none, none⟩ = [] ∧
    whereClause ⟨none, some (0, 5000000), none, none⟩ = none ∧
    ¬ (PredicateNode.cmpField "timestamp" "$gte" 0 ∈
        buildConditions ⟨none, some (0, 5000000), none, none⟩) ∧
    ¬ (PredicateNode.cmpField "timestamp" "$lte" 5000 ∈
        buildConditions ⟨none, some (0, 5000000), none, none⟩) := by
  refine ⟨rfl, rfl, ?_, ?_⟩ <;>
    simp [buildConditions, typeConditions, timeRangeConditions, symbolConditions]

/-- Claim C3 (amended): the compiler ignores the time range entirely — for
every filter, the compiled conditions and where clause are those of the same
filter with the time range removed, and no timestamp bound condition is ever
produced.  (The range-building code exists in the source only as a
commented-out block.) -/
theorem timeRange_ignored (f : QueryFilter) :
    buildConditions f = buildConditions ⟨f.type, none, f.symbols, f.limit⟩ ∧
    whereClause f = whereClause ⟨f.type, none, f.symbols, f.limit⟩ ∧
    timeRangeConditions f = [] := by
  cases f
  exact ⟨rfl, rfl, rfl⟩

/-- Claim C8: the compiler yields `none` for an all-absent filter; a bare
per-dimension condition with no wrapper when exactly one condition exists; a
single value compiles to an equality and multiple values to an `$or` of
equalities; two present dimensions combine under `$and`; and in particular
`{types:["crypto"], symbols:["BTC","ETH"]}` compiles to
`And(Equals(type,"crypto"), Or(Equals(symbol,"BTC"), Equals(symbol,"ETH")))`. -/
theorem filter_compiler_shapes :
    whereClause ⟨none, none, none, none⟩ = none ∧
    (∀ (t : String) (lim : Option Nat),
      whereClause ⟨some [t], none, none, lim⟩ =
        some (PredicateNode.eqField "type" t)) ∧
    (∀ (s : String) (lim : Option Nat),
      whereClause ⟨none, none, some [s], lim⟩ =
        some (PredicateNode.eqField "symbol" s)) ∧
    (∀ (t1 t2 : String) (ts : List String) (lim : Option Nat),
      whereClause ⟨some (t1 :: t2 :: ts), none, none, lim⟩ =
        some (PredicateNode.orNode
          ((t1 :: t2 :: ts).map (fun t => PredicateNode.eqField "type" t)))) ∧
    (∀ (t s1 s2 : String) (ss : List String) (lim : Option Nat),
      whereClause ⟨some [t], none, some (s1 :: s2 :: ss), lim⟩ =
        some (PredicateNode.andNode [PredicateNode.eqField "type" t,
          PredicateNode.orNode
            ((s1 :: s2 :: ss).map (fun s => PredicateNode.eqField "symbol" s))])) ∧
    whereClause ⟨some ["crypto"], none, some ["BTC", "ETH"], none⟩ =
      some (PredicateNode.andNode [PredicateNode.eqField "type" "crypto",
        PredicateNode.orNode [PredicateNode.eqField "symbol" "BTC",
          PredicateNode.eqField "symbol" "ETH"]]) :=
  ⟨rfl, fun _ _ => rfl, fun _ _ => rfl, fun _ _ _ _ => rfl, fun _ _ _ _ _ => rfl, rfl⟩

/-- Claim C9: the compiler is a pure function of the filter — structurally
equal filters compile to the same predicate tree — and the children of the
`$or` lists preserve the input order of the filter's values (the `i`-th
child is the equality for the `i`-th value), while an `$and` lists the type
condition before the symbol condition, matching the source's push order. -/
theorem filter_compiler_deterministic (f1 f2 : QueryFilter) (h : f1 = f2)
    (t1 t2 s1 s2 t : String) (ts ss : List String) (i : Nat) :
    whereClause f1 = whereClause f2 ∧
    (∃ cs : List PredicateNode,
      whereClause ⟨some (t1 :: t2 :: ts), none, none, none⟩ =
        some (PredicateNode.orNode cs) ∧
      cs.length = (t1 :: t2 :: ts).length ∧
      cs[i]? = ((t1 :: t2 :: ts)[i]?).map
        (fun v => PredicateNode.eqField "type" v)) ∧
    (∃ cs : List PredicateNode,
      whereClause ⟨none, none, some (s1 :: s2 :: ss), none⟩ =
        some (PredicateNode.orNode cs) ∧
      cs.length = (s1 :: s2 :: ss).length ∧
      cs[i]? = ((s1 :: s2 :: ss)[i]?).map
        (fun v => PredicateNode.eqField "symbol" v)) ∧
    whereClause ⟨some [t], none, some (s1 :: s2 :: ss), none⟩ =
      some (PredicateNode.andNode (typeConditions ⟨some [t], none, none, none⟩ ++
        symbolConditions ⟨none, none, some (s1 :: s2 :: ss), none⟩)) := by
  refine ⟨by rw [h], ⟨_, rfl, by simp, ?_⟩, ⟨_, rfl, by simp, ?_⟩, rfl⟩
  · simpa using List.getElem?_map (fun v => PredicateNode.eqField "type" v)
      (t1 :: t2 :: ts) i
  · simpa using List.getElem?_map (fun v => PredicateNode.eqField "symbol" v)
      (s1 :: s2 :: ss) i

/-- Witness for `filter_compiler_deterministic`: the crypto/BTC/ETH filter
compiled twice gives identical trees, and the second `$or` child for
symbols `["BTC","ETH"]` is the equality for `"ETH"`. -/
theorem filter_compiler_deterministic_witness :
    whereClause ⟨some ["crypto"], none, some ["BTC", "ETH"], none⟩ =
      whereClause ⟨some ["crypto"], none, some ["BTC", "ETH"], none⟩ ∧
    (∃ cs : List PredicateNode,
      whereClause ⟨none, none, some ["BTC", "ETH"], none⟩ =
        some (PredicateNode.orNode cs) ∧
      cs.length = 2 ∧
      cs[1]? = some (PredicateNode.eqField "symbol" "ETH")) := by
  obtain ⟨h1, -, h3, -⟩ := filter_compiler_deterministic
    ⟨some ["crypto"], none, some ["BTC", "ETH"], none⟩
    ⟨some ["crypto"], none, some ["BTC", "ETH"], none⟩ rfl
    "a" "b" "BTC" "ETH" "crypto" [] [] 1
  obtain ⟨cs, hcs, hlen, hget⟩ := h3
  exact ⟨h1, cs, hcs, hlen, by simpa using hget⟩

end FinsorData
